import Mathlib

/-!
Shallow embedding of `src/index.ts` of halo-kunkunyu/app-store-release-action
and of its API-client module.  Pure logic (manifest selection, release-note
assembly, request-body construction) is modelled as Lean functions; the
side-effecting pipeline `run` is modelled as an explicit function from a
configuration and an environment (the responses the outside world would give)
to a result together with the ordered trace of network calls issued.
JavaScript values reachable from YAML parsing are modelled by `JSValue`,
including `undefined`, so that property-access semantics (`TypeError` on
`undefined`/`null`, silent `undefined` for a missing key) is faithful.
Thrown `Error`s are modelled as their message strings; the `toString`
class-name prefix added by JavaScript when an error is interpolated is
elided, as no property here depends on it.
-/

namespace AppStoreRelease

/-- A JavaScript value as produced by `YAML.parse`: `undefined`, `null`,
a string, a boolean, a number (kept abstract as an integer), or an object
with string keys. -/
inductive JSValue where
  | undefined : JSValue
  | jsNull : JSValue
  | str : String → JSValue
  | bool : Bool → JSValue
  | num : Int → JSValue
  | obj : List (String × JSValue) → JSValue


/-- JavaScript property access `v[k]`: throws `TypeError` on `undefined` and
`null`, returns the entry (or `undefined` when the key is absent) on an
object, and returns `undefined` on every other primitive. -/
def jsGet : JSValue → String → Except String JSValue
  | .undefined, _ => .error "TypeError: Cannot read properties of undefined"
  | .jsNull, _ => .error "TypeError: Cannot read properties of null"
  | .obj fields, k => .ok ((fields.lookup k).getD .undefined)
  | _, _ => .ok .undefined

/-- The `CommonManifest` interface of `index.ts`.  The TypeScript type says
both fields are strings, but at runtime `manifest.spec.requires` may be
`undefined` when the key is missing, so the fields are modelled as
`JSValue`. -/
structure CommonManifest where
  requires : JSValue
  version : JSValue


/-- A zip/jar archive as seen through AdmZip: its entries, each a name with
UTF-8-decoded content. -/
structure Archive where
  entries : List (String × String)


/-- The file-system and parser environment `readAppManifest` runs against:
what `new AdmZip(path)` yields for a path (or the error it throws), and what
`YAML.parse` yields for a content string (or the parse error it throws). -/
structure FsEnv where
  openArchive : String → Except String Archive
  parseYaml : String → Except String JSValue

/-- The body of the `try` block of `readAppManifest` in `index.ts`: open the
archive at `targetFile`, look up the entry `yamlFileName`, parse it, and
read `manifest.spec.requires` and `manifest.spec.version`. -/
def manifestFromArchive (fs : FsEnv) (targetFile yamlFileName kindLabel : String) :
    Except String CommonManifest := do
  let zip ← fs.openArchive targetFile
  match zip.entries.lookup yamlFileName with
  | none => .error (kindLabel ++ " package does not contain " ++ yamlFileName ++ " file")
  | some content => do
    let manifest ← fs.parseYaml content
    let spec ← jsGet manifest "spec"
    let req ← jsGet spec "requires"
    let ver ← jsGet spec "version"
    .ok ⟨req, ver⟩

/-- JavaScript `s.endsWith(suffix)`, modelled on the character list of the
string so that it evaluates by kernel reduction. -/
def strEndsWith (s suffix : String) : Bool :=
  suffix.data.isSuffixOf s.data

/-- The `catch` of `readAppManifest`: a success is returned (as `some`, since
the declared TypeScript return type is `CommonManifest | undefined`); any
error thrown inside the `try` is rewrapped with the fixed prefix. -/
def wrapCatch (r : Except String CommonManifest) : Except String (Option CommonManifest) :=
  match r with
  | .ok m => .ok (some m)
  | .error e => .error ("Failed to read manifest file: " ++ e)

/-- `readAppManifest` of `index.ts`: pick the first `.jar` file (plugin), else
the first `.zip` file (theme), else throw; then read the kind-specific YAML
manifest out of the chosen archive.  `path.join(assetsDir, file)` is modelled
as `assetsDir ++ "/" ++ file`. -/
def readAppManifest (fs : FsEnv) (assetsDir : String) (assets : List String) :
    Except String (Option CommonManifest) :=
  let jarFile := assets.find? (fun file => strEndsWith file ".jar")
  let zipFile := assets.find? (fun file => strEndsWith file ".zip")
  match jarFile with
  | some j => wrapCatch (manifestFromArchive fs (assetsDir ++ "/" ++ j) "plugin.yaml" "Plugin")
  | none =>
    match zipFile with
    | some z => wrapCatch (manifestFromArchive fs (assetsDir ++ "/" ++ z) "theme.yaml" "Theme")
    | none => .error "No jar or zip file found in assets directory"

/-- The fields of a GitHub release (`releaseInfo.data`) that `index.ts`
reads: `name` and `body` may be `null` in the GitHub API and are modelled as
`Option String`. -/
structure ReleaseData where
  name : Option String
  body : Option String
  tag_name : String
  html_url : String
  prerelease : Bool

/-- The markdown assembled by `getReleaseNote` in `index.ts`: start from
`releaseInfo.data.body || ""`, append the `---` separator when the body is
truthy (non-empty), and append the attribution line when the repository is
not private. -/
def getReleaseNoteMarkdown (body : Option String) (tagName htmlUrl : String)
    (priv : Bool) : String :=
  let releaseBody := body.getD ""
  let releaseBody := if releaseBody = "" then releaseBody else releaseBody ++ "\n\n---"
  if priv then releaseBody
  else releaseBody ++ "\n\n*Generated from [" ++ tagName ++ "](" ++ htmlUrl ++ ")*"

/-- Modelled from the claim wording, for comparison with
`getReleaseNoteMarkdown`: the body (empty string if null), followed by a
separator line only when the body is non-empty, followed by the attribution
line exactly when the repository is not private. -/
def releaseNoteClaimed (body : Option String) (tagName htmlUrl : String)
    (priv : Bool) : String :=
  (body.getD "") ++
    (if body.getD "" = "" then "" else "\n\n---") ++
    (if priv then ""
     else "\n\n*Generated from [" ++ tagName ++ "](" ++ htmlUrl ++ ")*")

/-- A `metadata` object of the store-API request bodies. -/
structure Metadata where
  generateName : String
  name : String

/-- The `spec` object of the release descriptor posted by
`createAppRelease`. -/
structure ReleaseSpecBody where
  applicationName : String
  displayName : Option String
  draft : Bool
  ownerName : String
  preRelease : Bool
  requires : JSValue
  version : JSValue
  notesName : String

/-- The release descriptor posted by `createAppRelease`. -/
structure ReleaseBody where
  apiVersion : String
  kind : String
  metadata : Metadata
  spec : ReleaseSpecBody

/-- The notes descriptor posted by `createAppRelease`. -/
structure NotesBody where
  apiVersion : String
  html : String
  kind : String
  metadata : Metadata
  rawType : String
  raw : String

/-- The whole request body of the release-creation POST. -/
structure CreateReleaseBody where
  release : ReleaseBody
  notes : NotesBody
  makeLatest : Bool

/-- The pure part of `createAppRelease` in `index.ts`: the guard on a missing
manifest and the construction of the request body.  The POST itself is a
network call recorded by `run`. -/
def createAppReleaseBody (release : ReleaseData) (html markdown : String)
    (appManifest : Option CommonManifest) : Except String CreateReleaseBody :=
  match appManifest with
  | none => .error "App manifest not found"
  | some m =>
    .ok
      { release :=
          { apiVersion := "store.kunkunyu.com/v1alpha1"
            kind := "Release"
            metadata := { generateName := "app-release-", name := "" }
            spec :=
              { applicationName := ""
                displayName := release.name
                draft := false
                ownerName := ""
                preRelease := release.prerelease
                requires := m.requires
                version := m.version
                notesName := "" } }
        notes :=
          { apiVersion := "store.kunkunyu.com/v1alpha1"
            html := html
            kind := "Content"
            metadata := { generateName := "app-release-notes-", name := "" }
            rawType := "MARKDOWN"
            raw := markdown }
        makeLatest := true }

/-- The multipart form payload built for one asset upload: the
`releaseName` field and the `file` stream (identified by its path). -/
structure FormPayload where
  releaseName : String
  filePath : String

/-- One network call issued during a run, in the order the code issues
them.  The two store-API calls are `createRelease` and `uploadAsset`; the
rest go to the source-control API. -/
inductive NetCall where
  | getRepo : String → String → NetCall
  | getRelease : String → String → String → NetCall
  | renderMarkdown : String → NetCall
  | createRelease : CreateReleaseBody → NetCall
  | uploadAsset : FormPayload → NetCall

/-- The configuration inputs the action reads at startup
(`github-token`/`yunext-pat` are opaque to the logic and omitted). -/
structure Config where
  owner : String
  repo : String
  appId : String
  assetsDir : String
  releaseId : String

/-- The environment a run executes against: the responses of the
source-control API, of the store API, and the state of the local file
system, on top of the archive/YAML environment `FsEnv`. -/
structure Env extends FsEnv where
  repoPrivate : Except String Bool
  release : Except String ReleaseData
  render : String → Except String String
  createRelease : CreateReleaseBody → Except String String
  upload : FormPayload → Except String Unit
  dirExists : Bool
  listing : List String
  fileExists : String → Bool

/-- `getAssets` of `index.ts`: fail when the assets directory does not exist
or its listing is empty, otherwise return the listing. -/
def getAssets (env : Env) (assetsDir : String) : Except String (List String) :=
  if env.dirExists = false then
    .error ("Assets directory does not exist: " ++ assetsDir)
  else if env.listing.isEmpty then
    .error ("Assets directory is empty: " ++ assetsDir)
  else .ok env.listing

/-- One asset upload from `uploadAssets` in `index.ts`: re-check that
the file (at `${assetsDir}/${asset}`) still exists, build the two-field
multipart payload, and POST it.  Returns the outcome and the store calls
issued. -/
def uploadOne (env : Env) (assetsDir releaseName asset : String) :
    Except String Unit × List NetCall :=
  let assetPath := assetsDir ++ "/" ++ asset
  if env.fileExists assetPath = false then
    (.error ("Asset file does not exist: " ++ assetPath), [])
  else
    let payload : FormPayload := ⟨releaseName, assetPath⟩
    match env.upload payload with
    | .error e => (.error e, [.uploadAsset payload])
    | .ok _ => (.ok (), [.uploadAsset payload])

/-- The `Promise.all` aggregate of `uploadAssets`: all uploads are issued and
the aggregate result is the first rejection (modelled in listing order) or
success.  The rejection that settles the aggregate is reported with its own
message. -/
def uploadAssets (env : Env) (assetsDir releaseName : String) :
    List String → Except String Unit × List NetCall
  | [] => (.ok (), [])
  | a :: rest =>
    match uploadOne env assetsDir releaseName a with
    | (.error e, t) => (.error e, t)
    | (.ok _, t) =>
      let r := uploadAssets env assetsDir releaseName rest
      (r.1, t ++ r.2)

/-- The `run` pipeline of `index.ts`: validate the release id, fetch repo and
release info, assemble and render the release note, list the assets, read
the manifest, create the store release, and upload every asset.  Returns the
outcome together with the trace of network calls, in order. -/
def run (cfg : Config) (env : Env) : Except String Unit × List NetCall :=
  if cfg.releaseId = "" then (.error "Release ID not found", [])
  else
    let t1 : List NetCall := [.getRepo cfg.owner cfg.repo]
    match env.repoPrivate with
    | .error e => (.error e, t1)
    | .ok priv =>
      let t2 := t1 ++ [.getRelease cfg.owner cfg.repo cfg.releaseId]
      match env.release with
      | .error e => (.error e, t2)
      | .ok rel =>
        let markdown := getReleaseNoteMarkdown rel.body rel.tag_name rel.html_url priv
        let t3 := t2 ++ [.renderMarkdown markdown]
        match env.render markdown with
        | .error e => (.error e, t3)
        | .ok html =>
          match getAssets env cfg.assetsDir with
          | .error e => (.error e, t3)
          | .ok assets =>
            match readAppManifest env.toFsEnv cfg.assetsDir assets with
            | .error e => (.error e, t3)
            | .ok appManifest =>
              match createAppReleaseBody rel html markdown appManifest with
              | .error e => (.error e, t3)
              | .ok body =>
                let t4 := t3 ++ [.createRelease body]
                match env.createRelease body with
                | .error e => (.error e, t4)
                | .ok name =>
                  let u := uploadAssets env cfg.assetsDir name assets
                  (u.1, t4 ++ u.2)

/-- The process-level outcome printed by the top-level `.then`/`.catch` of
`index.ts`: the error message is surfaced verbatim inside the failure
banner. -/
def runOutcome (cfg : Config) (env : Env) : String :=
  match (run cfg env).1 with
  | .ok _ => "✅ [Completed]: App release created successfully"
  | .error e => "❌ [Failed]: " ++ e

/-- Keep only the asset-upload calls of a trace. -/
def uploadCalls (t : List NetCall) : List NetCall :=
  t.filter fun c => match c with
    | .uploadAsset _ => true
    | _ => false

/-- Keep only the store-API calls (release creation and asset upload) of a
trace. -/
def storeCalls (t : List NetCall) : List NetCall :=
  t.filter fun c => match c with
    | .createRelease _ => true
    | .uploadAsset _ => true
    | _ => false

/-! Example environments used by witnesses and counterexamples. -/

/-- An archive environment that fails every archive open and every parse. -/
def fsInert : FsEnv :=
  { openArchive := fun _ => .error "ENOENT"
    parseYaml := fun _ => .error "bad yaml" }

/-- An archive environment in which `assets/a.jar` is a plugin archive with a
well-formed `plugin.yaml`. -/
def fsPluginOk : FsEnv :=
  { openArchive := fun p =>
      if p = "assets/a.jar" then .ok ⟨[("plugin.yaml", "yam")]⟩ else .error "ENOENT"
    parseYaml := fun s =>
      if s = "yam" then
        .ok (.obj [("spec", .obj [("requires", .str "2.0.0"), ("version", .str "1.2.3")])])
      else .error "bad yaml" }

/-- An archive environment in which `assets/a.jar` holds a `plugin.yaml` that
parses to an object whose `spec` section is empty: `spec.requires` and
`spec.version` are both absent. -/
def fsSpecEmpty : FsEnv :=
  { openArchive := fun p =>
      if p = "assets/a.jar" then .ok ⟨[("plugin.yaml", "yam")]⟩ else .error "ENOENT"
    parseYaml := fun s =>
      if s = "yam" then .ok (.obj [("spec", .obj [])]) else .error "bad yaml" }

/-- The first three network calls of every run that gets past the release-id
check: repository fetch, release fetch, markdown render. -/
def baseTrace (cfg : Config) (rel : ReleaseData) (p : Bool) : List NetCall :=
  [.getRepo cfg.owner cfg.repo,
   .getRelease cfg.owner cfg.repo cfg.releaseId,
   .renderMarkdown (getReleaseNoteMarkdown rel.body rel.tag_name rel.html_url p)]

/-- An environment in which every outward interaction fails. -/
def envInert : Env :=
  { toFsEnv := fsInert
    repoPrivate := .error "net down"
    release := .error "net down"
    render := fun _ => .error "net down"
    createRelease := fun _ => .error "net down"
    upload := fun _ => .error "net down"
    dirExists := false
    listing := []
    fileExists := fun _ => false }

/-- An environment in which the whole pipeline succeeds: a public repo, a
fetched release, two asset files of which `a.jar` is a valid plugin archive,
and a store API that accepts everything. -/
def envHappy : Env :=
  { toFsEnv := fsPluginOk
    repoPrivate := .ok false
    release := .ok ⟨some "Rel", some "Fixed bugs", "v1.0", "https://x", false⟩
    render := fun s => .ok ("<p>" ++ s ++ "</p>")
    createRelease := fun _ => .ok "app-release-abcde"
    upload := fun _ => .ok ()
    dirExists := true
    listing := ["a.jar", "b.txt"]
    fileExists := fun _ => true }

/-- The environment `envHappy` with every asset file vanished from disk
before upload. -/
def envVanished : Env :=
  { envHappy with fileExists := fun _ => false }

/-- The environment `envHappy` with the assets directory missing. -/
def envNoDir : Env :=
  { envHappy with dirExists := false }

/-- A configuration with a present release id. -/
def cfgOk : Config := ⟨"o", "r", "app-1", "assets", "123"⟩

/-- A configuration whose release-id input is the empty string (the value
`getInput` yields when the input is absent). -/
def cfgNoId : Config := ⟨"o", "r", "app-1", "assets", ""⟩

/-! Claim theorems. -/

/-- C1: for every assets listing, manifest extraction selects a file ending
in `.jar` when one is present and reads `plugin.yaml` out of it; otherwise a
file ending in `.zip` when one is present, reading `theme.yaml`; in
particular when both a `.jar` and a `.zip` are present the `.jar` is
selected. -/
theorem readAppManifest_extension_precedence (fs : FsEnv) (dir : String)
    (assets : List String) :
    (∀ j, assets.find? (fun f => strEndsWith f ".jar") = some j →
      readAppManifest fs dir assets =
        wrapCatch (manifestFromArchive fs (dir ++ "/" ++ j) "plugin.yaml" "Plugin")) ∧
    (assets.find? (fun f => strEndsWith f ".jar") = none →
      ∀ z, assets.find? (fun f => strEndsWith f ".zip") = some z →
        readAppManifest fs dir assets =
          wrapCatch (manifestFromArchive fs (dir ++ "/" ++ z) "theme.yaml" "Theme")) ∧
    (∀ j z, assets.find? (fun f => strEndsWith f ".jar") = some j →
      assets.find? (fun f => strEndsWith f ".zip") = some z →
        readAppManifest fs dir assets =
          wrapCatch (manifestFromArchive fs (dir ++ "/" ++ j) "plugin.yaml" "Plugin")) := by
  refine ⟨?_, ?_, ?_⟩
  · intro j hj
    unfold readAppManifest
    rw [hj]
  · intro hn z hz
    unfold readAppManifest
    rw [hn, hz]
  · intro j z hj _
    unfold readAppManifest
    rw [hj]

/-- C1 witness: on the listing `["a.jar", "b.zip"]` the `.jar` is selected
and `plugin.yaml` is the manifest looked up. -/
theorem readAppManifest_extension_precedence_witness :
    readAppManifest fsInert "assets" ["a.jar", "b.zip"] =
      wrapCatch (manifestFromArchive fsInert "assets/a.jar" "plugin.yaml" "Plugin") :=
  (readAppManifest_extension_precedence fsInert "assets" ["a.jar", "b.zip"]).2.2
    "a.jar" "b.zip" rfl rfl

/-- C2 counterexample: a listing containing both a `.jar` and a `.zip` (two
files matching recognized extensions, not exactly one) on which manifest
extraction nevertheless succeeds, contradicting the claim that extraction
fails when both extensions are present. -/
theorem readAppManifest_both_present_counterexample :
    strEndsWith "a.jar" ".jar" = true ∧ strEndsWith "b.zip" ".zip" = true ∧
    readAppManifest fsPluginOk "assets" ["a.jar", "b.zip"] =
      .ok (some ⟨.str "2.0.0", .str "1.2.3"⟩) :=
  ⟨rfl, rfl, rfl⟩

/-- C2 amended: manifest extraction fails when the listing has neither a
`.jar` nor a `.zip` file, with the "no package found" error, without opening
any archive (the result does not depend on the archive environment); when it
succeeds, at least one of the two extensions is present (a `.jar` and a
`.zip` may coexist, in which case the `.jar` is used). -/
theorem readAppManifest_no_package (fs fs2 : FsEnv) (dir : String)
    (assets : List String) :
    (assets.find? (fun f => strEndsWith f ".jar") = none →
      assets.find? (fun f => strEndsWith f ".zip") = none →
        readAppManifest fs dir assets =
          .error "No jar or zip file found in assets directory" ∧
        readAppManifest fs dir assets = readAppManifest fs2 dir assets) ∧
    (∀ m, readAppManifest fs dir assets = .ok m →
      (assets.find? (fun f => strEndsWith f ".jar")).isSome ∨
      (assets.find? (fun f => strEndsWith f ".zip")).isSome) := by
  constructor
  · intro hj hz
    unfold readAppManifest
    rw [hj, hz]
    exact ⟨rfl, rfl⟩
  · intro m hm
    unfold readAppManifest at hm
    cases hj : assets.find? (fun f => strEndsWith f ".jar") with
    | some j => exact Or.inl (by simp [hj])
    | none =>
      cases hz : assets.find? (fun f => strEndsWith f ".zip") with
      | some z => exact Or.inr (by simp [hz])
      | none => rw [hj, hz] at hm; exact absurd hm (by simp)

/-- C2 amended witness: the listing `["readme.md"]` has neither extension and
extraction fails with the "no package found" error, identically under two
different archive environments. -/
theorem readAppManifest_no_package_witness :
    readAppManifest fsInert "assets" ["readme.md"] =
      .error "No jar or zip file found in assets directory" ∧
    readAppManifest fsInert "assets" ["readme.md"] =
      readAppManifest fsPluginOk "assets" ["readme.md"] :=
  (readAppManifest_no_package fsInert fsPluginOk "assets" ["readme.md"]).1 rfl rfl

/-- C3: the assembled release-note markdown equals the body (empty if null),
then the separator only when the body is non-empty, then the attribution
line exactly when the repository is not private; including the two concrete
examples of the claim. -/
theorem getReleaseNote_markdown_correct (body : Option String) (tag url : String)
    (priv : Bool) :
    getReleaseNoteMarkdown body tag url priv = releaseNoteClaimed body tag url priv ∧
    getReleaseNoteMarkdown (some "") "v" "u" true = "" ∧
    getReleaseNoteMarkdown (some "Fixed bugs") "v1.0" "https://x" false =
      "Fixed bugs\n\n---\n\n*Generated from [v1.0](https://x)*" := by
  refine ⟨?_, rfl, rfl⟩
  unfold getReleaseNoteMarkdown releaseNoteClaimed
  cases priv with
  | true => by_cases hb : body.getD "" = "" <;> simp [hb]
  | false =>
    by_cases hb : body.getD "" = "" <;> simp [hb, String.append_assoc]
    rw [← String.append_assoc "\n\n---" "\n\n*Generated from ["
      (tag ++ ("](" ++ (url ++ ")*")))]
    rfl

/-- C4 counterexample: an archive whose manifest entry is present and parses
as well-formed structured data with a `spec` section lacking both
`spec.requires` and `spec.version`; the claim says extraction must fail, but
it succeeds, returning both fields as the absent (`undefined`) value. -/
theorem manifest_missing_fields_counterexample :
    fsSpecEmpty.parseYaml "yam" = .ok (.obj [("spec", .obj [])]) ∧
    readAppManifest fsSpecEmpty "assets" ["a.jar"] =
      .ok (some ⟨.undefined, .undefined⟩) :=
  ⟨rfl, rfl⟩

/-- C4 amended: when the kind-specific manifest entry is present, the
archive read fails with the parse error when the content is malformed, and
with a type error when the parsed data has no `spec` member at all; when
`spec` is an object, the read succeeds and returns exactly the values found
at `spec.requires` and `spec.version`, each being the absent value when the
key is missing. -/
theorem manifestFromArchive_parse_behavior (fs : FsEnv)
    (target yname label content : String) (arch : Archive)
    (hopen : fs.openArchive target = .ok arch)
    (hentry : arch.entries.lookup yname = some content) :
    (∀ e, fs.parseYaml content = .error e →
      manifestFromArchive fs target yname label = .error e) ∧
    (∀ fields, fs.parseYaml content = .ok (.obj fields) →
      fields.lookup "spec" = none →
        manifestFromArchive fs target yname label =
          .error "TypeError: Cannot read properties of undefined") ∧
    (∀ fields sfields, fs.parseYaml content = .ok (.obj fields) →
      fields.lookup "spec" = some (.obj sfields) →
        manifestFromArchive fs target yname label =
          .ok ⟨(sfields.lookup "requires").getD .undefined,
               (sfields.lookup "version").getD .undefined⟩) := by
  refine ⟨?_, ?_, ?_⟩
  · intro e he
    simp [manifestFromArchive, hopen, hentry, he, bind, Except.bind]
  · intro fields hp hl
    simp [manifestFromArchive, hopen, hentry, hp, jsGet, hl, bind, Except.bind]
  · intro fields sfields hp hl
    simp [manifestFromArchive, hopen, hentry, hp, jsGet, hl, bind, Except.bind]

/-- C4 amended witness: in the environment where `spec` carries both keys,
the read returns exactly the two strings. -/
theorem manifestFromArchive_parse_behavior_witness :
    manifestFromArchive fsPluginOk "assets/a.jar" "plugin.yaml" "Plugin" =
      .ok ⟨.str "2.0.0", .str "1.2.3"⟩ :=
  (manifestFromArchive_parse_behavior fsPluginOk "assets/a.jar" "plugin.yaml"
      "Plugin" "yam" ⟨[("plugin.yaml", "yam")]⟩ rfl rfl).2.2
    [("spec", .obj [("requires", .str "2.0.0"), ("version", .str "1.2.3")])]
    [("requires", .str "2.0.0"), ("version", .str "1.2.3")] rfl rfl

/-- C7: for every release, rendered note and manifest, the release-creation
request body carries the release title as display name, the copied
prerelease flag, the manifest values of `requires` and `version`, `draft`
always false, and a notes descriptor with the HTML, the raw markdown, and
content type "MARKDOWN". -/
theorem createAppRelease_body_fields (rel : ReleaseData) (html markdown : String)
    (m : CommonManifest) :
    ∃ b, createAppReleaseBody rel html markdown (some m) = .ok b ∧
      b.release.spec.displayName = rel.name ∧
      b.release.spec.preRelease = rel.prerelease ∧
      b.release.spec.requires = m.requires ∧
      b.release.spec.version = m.version ∧
      b.release.spec.draft = false ∧
      b.notes.html = html ∧
      b.notes.raw = markdown ∧
      b.notes.rawType = "MARKDOWN" :=
  ⟨_, rfl, rfl, rfl, rfl, rfl, rfl, rfl, rfl, rfl⟩

/-- C9: the manifest reader never returns the absent value: every success is
`some` manifest, and therefore the missing-manifest guard of the release
creator can never fire on a value the reader returned. -/
theorem readAppManifest_never_absent (fs : FsEnv) (dir : String)
    (assets : List String) (om : Option CommonManifest)
    (h : readAppManifest fs dir assets = .ok om) :
    om.isSome = true ∧
    ∀ rel html markdown, ∃ b, createAppReleaseBody rel html markdown om = .ok b := by
  have hw : ∀ r : Except String CommonManifest, wrapCatch r = .ok om →
      om.isSome = true := by
    intro r hr
    cases r with
    | ok m => simp [wrapCatch] at hr; simp [← hr]
    | error e => simp [wrapCatch] at hr
  have hs : om.isSome = true := by
    unfold readAppManifest at h
    simp only [] at h
    split at h
    · exact hw _ h
    · split at h
      · exact hw _ h
      · exact absurd h (by simp)
  refine ⟨hs, ?_⟩
  obtain ⟨m, hm⟩ := Option.isSome_iff_exists.mp hs
  subst hm
  exact fun rel html markdown => ⟨_, rfl⟩

/-- C9 witness: a successful read returns a `some` manifest on which the
release creator succeeds. -/
theorem readAppManifest_never_absent_witness :
    (some (⟨.str "2.0.0", .str "1.2.3"⟩ : CommonManifest)).isSome = true ∧
    ∀ rel html markdown, ∃ b, createAppReleaseBody rel html markdown
      (some ⟨.str "2.0.0", .str "1.2.3"⟩) = .ok b :=
  readAppManifest_never_absent fsPluginOk "assets" ["a.jar"] _ rfl

/-! Helper lemmas shared by several claim proofs. -/

lemma append_left_cancel {s t u : String} (h : s ++ t = s ++ u) : t = u := by
  have hd := congrArg String.data h
  simp [String.data_append] at hd
  exact String.ext hd

lemma getAssets_ok {env : Env} {dir : String} {l : List String}
    (h : getAssets env dir = .ok l) :
    l = env.listing ∧ env.dirExists = true ∧ env.listing ≠ [] := by
  unfold getAssets at h
  split at h
  · exact absurd h (by simp)
  · split at h
    · exact absurd h (by simp)
    · next hd hl =>
      refine ⟨?_, ?_, ?_⟩
      · simpa using h.symm
      · simpa using hd
      · simpa using hl

lemma run_stages (cfg : Config) (env : Env) (p : Bool) (rel : ReleaseData)
    (html : String)
    (hid : ¬ cfg.releaseId = "")
    (hrepo : env.repoPrivate = .ok p)
    (hrel : env.release = .ok rel)
    (hrender : env.render (getReleaseNoteMarkdown rel.body rel.tag_name rel.html_url p) =
      .ok html) :
    run cfg env =
      match getAssets env cfg.assetsDir with
      | .error e => (.error e, baseTrace cfg rel p)
      | .ok assets =>
        match readAppManifest env.toFsEnv cfg.assetsDir assets with
        | .error e => (.error e, baseTrace cfg rel p)
        | .ok appManifest =>
          match createAppReleaseBody rel html
              (getReleaseNoteMarkdown rel.body rel.tag_name rel.html_url p) appManifest with
          | .error e => (.error e, baseTrace cfg rel p)
          | .ok body =>
            match env.createRelease body with
            | .error e => (.error e, baseTrace cfg rel p ++ [.createRelease body])
            | .ok name =>
              ((uploadAssets env cfg.assetsDir name assets).1,
               baseTrace cfg rel p ++ [.createRelease body] ++
                 (uploadAssets env cfg.assetsDir name assets).2) := by
  simp only [run, if_neg hid, hrepo, hrel, hrender]
  rfl

/-- C8: with an empty (or absent, which `getInput` reports as empty)
release-id input, the run fails immediately with the missing-release-id
error, the network-call trace is empty, and the process outcome carries the
message. -/
theorem run_missing_release_id (cfg : Config) (env : Env)
    (h : cfg.releaseId = "") :
    run cfg env = (.error "Release ID not found", []) ∧
    runOutcome cfg env = "❌ [Failed]: Release ID not found" := by
  have h1 : run cfg env = (.error "Release ID not found", []) := by
    unfold run
    rw [if_pos h]
  refine ⟨h1, ?_⟩
  unfold runOutcome
  rw [h1]
  rfl

/-- C8 witness: the run with empty release id in a concrete environment. -/
theorem run_missing_release_id_witness :
    run cfgNoId envInert = (.error "Release ID not found", []) ∧
    runOutcome cfgNoId envInert = "❌ [Failed]: Release ID not found" :=
  run_missing_release_id cfgNoId envInert rfl

/-- C10: when the run reaches the assets stage and the configured assets
directory does not exist, or exists with an empty listing, the run fails
with an error message naming the directory, no store-API call is in the
trace, and the result does not depend on the archive environment (so no
manifest extraction has happened). -/
theorem run_assets_dir_guard (cfg : Config) (env : Env) (p : Bool)
    (rel : ReleaseData) (html : String)
    (hid : ¬ cfg.releaseId = "")
    (hrepo : env.repoPrivate = .ok p)
    (hrel : env.release = .ok rel)
    (hrender : env.render (getReleaseNoteMarkdown rel.body rel.tag_name rel.html_url p) =
      .ok html) :
    (env.dirExists = false →
      (run cfg env).1 = .error ("Assets directory does not exist: " ++ cfg.assetsDir) ∧
      storeCalls (run cfg env).2 = []) ∧
    (env.dirExists = true → env.listing = [] →
      (run cfg env).1 = .error ("Assets directory is empty: " ++ cfg.assetsDir) ∧
      storeCalls (run cfg env).2 = []) ∧
    ((env.dirExists = false ∨ env.listing = []) → ∀ fs2 : FsEnv,
      (run cfg env).1 = (run cfg { env with toFsEnv := fs2 }).1) := by
  have hrun := run_stages cfg env p rel html hid hrepo hrel hrender
  refine ⟨?_, ?_, ?_⟩
  · intro hd
    have hga : getAssets env cfg.assetsDir =
        .error ("Assets directory does not exist: " ++ cfg.assetsDir) := by
      simp [getAssets, hd]
    rw [hrun, hga]
    exact ⟨rfl, rfl⟩
  · intro hd hl
    have hga : getAssets env cfg.assetsDir =
        .error ("Assets directory is empty: " ++ cfg.assetsDir) := by
      simp [getAssets, hd, hl]
    rw [hrun, hga]
    exact ⟨rfl, rfl⟩
  · intro hcase fs2
    have hrun2 := run_stages cfg { env with toFsEnv := fs2 } p rel html hid hrepo hrel hrender
    have hsame : getAssets { env with toFsEnv := fs2 } cfg.assetsDir =
        getAssets env cfg.assetsDir := rfl
    rcases hcase with hd | hl
    · have hga : getAssets env cfg.assetsDir =
          .error ("Assets directory does not exist: " ++ cfg.assetsDir) := by
        simp [getAssets, hd]
      rw [hrun, hrun2, hsame, hga]
    · by_cases hd : env.dirExists = false
      · have hga : getAssets env cfg.assetsDir =
            .error ("Assets directory does not exist: " ++ cfg.assetsDir) := by
          simp [getAssets, hd]
        rw [hrun, hrun2, hsame, hga]
      · have hga : getAssets env cfg.assetsDir =
            .error ("Assets directory is empty: " ++ cfg.assetsDir) := by
          simp [getAssets, hd, hl]
        rw [hrun, hrun2, hsame, hga]

/-- C10 witness: with the assets directory missing, the concrete run fails
naming the directory, makes no store call, and ignores the archive
environment. -/
theorem run_assets_dir_guard_witness :
    ((run cfgOk envNoDir).1 = .error ("Assets directory does not exist: " ++ "assets") ∧
      storeCalls (run cfgOk envNoDir).2 = []) ∧
    ((run cfgOk envNoDir).1 = (run cfgOk { envNoDir with toFsEnv := fsInert }).1) := by
  have h := run_assets_dir_guard cfgOk envNoDir false
    ⟨some "Rel", some "Fixed bugs", "v1.0", "https://x", false⟩
    ("<p>" ++ getReleaseNoteMarkdown (some "Fixed bugs") "v1.0" "https://x" false ++ "</p>")
    (by simp [cfgOk]) rfl rfl rfl
  exact ⟨h.1 rfl, h.2.2 (Or.inl rfl) fsInert⟩

lemma uploadOne_ok_cases (env : Env) (dir name a : String) :
    (uploadOne env dir name a).1 = .ok () →
      (uploadOne env dir name a).2 = [.uploadAsset ⟨name, dir ++ "/" ++ a⟩] := by
  intro h
  unfold uploadOne at h ⊢
  cases hf : env.fileExists (dir ++ "/" ++ a) with
  | false => simp [hf] at h
  | true =>
    simp only [hf] at h ⊢
    cases hu : env.upload ⟨name, dir ++ "/" ++ a⟩ with
    | error e => simp [hu] at h
    | ok u => simp [hu]

lemma uploadAssets_ok_all (env : Env) (dir name : String) :
    ∀ l, (uploadAssets env dir name l).1 = .ok () →
      ∀ a ∈ l, (uploadOne env dir name a).1 = .ok () := by
  intro l
  induction l with
  | nil => intro _ a ha; cases ha
  | cons b rest ih =>
    intro h a ha
    unfold uploadAssets at h
    cases hb : uploadOne env dir name b with
    | mk fst snd =>
      rw [hb] at h
      cases fst with
      | error e => simp at h
      | ok u =>
        simp only [] at h
        rcases List.mem_cons.mp ha with hab | har
        · subst hab; rw [hb]
        · exact ih h a har

lemma uploadAssets_ok_trace (env : Env) (dir name : String) :
    ∀ l, (uploadAssets env dir name l).1 = .ok () →
      (uploadAssets env dir name l).2 =
        l.map (fun a => NetCall.uploadAsset ⟨name, dir ++ "/" ++ a⟩) := by
  intro l
  induction l with
  | nil => intro _; rfl
  | cons b rest ih =>
    intro h
    have hb1 : (uploadOne env dir name b).1 = .ok () :=
      uploadAssets_ok_all env dir name (b :: rest) h b (List.mem_cons_self b rest)
    have hbt := uploadOne_ok_cases env dir name b hb1
    unfold uploadAssets at h ⊢
    cases hb : uploadOne env dir name b with
    | mk fst snd =>
      rw [hb] at h hbt
      cases fst with
      | error e => simp at h
      | ok u =>
        simp only [] at h hbt ⊢
        rw [hbt, ih h]
        rfl

lemma uploadAssets_error_mem (env : Env) (dir name : String) :
    ∀ l e, (uploadAssets env dir name l).1 = .error e →
      ∃ a ∈ l, (uploadOne env dir name a).1 = .error e := by
  intro l
  induction l with
  | nil => intro e h; simp [uploadAssets] at h
  | cons b rest ih =>
    intro e h
    unfold uploadAssets at h
    cases hb : uploadOne env dir name b with
    | mk fst snd =>
      rw [hb] at h
      cases fst with
      | error e2 =>
        simp only [] at h
        injection h with h2
        exact ⟨b, List.mem_cons_self b rest, by rw [hb, h2]⟩
      | ok u =>
        simp only [] at h
        obtain ⟨a, ha, hae⟩ := ih e h
        exact ⟨a, List.mem_cons_of_mem b ha, hae⟩

lemma uploadCalls_of_map (g : String → FormPayload) (l : List String) :
    uploadCalls (l.map fun a => NetCall.uploadAsset (g a)) =
      l.map fun a => NetCall.uploadAsset (g a) := by
  induction l with
  | nil => rfl
  | cons b rest ih =>
    simp only [uploadCalls, List.map_cons, List.filter_cons] at ih ⊢
    simp [ih]

lemma run_ok_shape (cfg : Config) (env : Env) (h : (run cfg env).1 = .ok ()) :
    ∃ p rel html om body name,
      ¬ cfg.releaseId = "" ∧
      env.repoPrivate = .ok p ∧
      env.release = .ok rel ∧
      env.render (getReleaseNoteMarkdown rel.body rel.tag_name rel.html_url p) = .ok html ∧
      getAssets env cfg.assetsDir = .ok env.listing ∧
      readAppManifest env.toFsEnv cfg.assetsDir env.listing = .ok om ∧
      createAppReleaseBody rel html
        (getReleaseNoteMarkdown rel.body rel.tag_name rel.html_url p) om = .ok body ∧
      env.createRelease body = .ok name ∧
      (uploadAssets env cfg.assetsDir name env.listing).1 = .ok () ∧
      run cfg env = (.ok (), baseTrace cfg rel p ++ [.createRelease body] ++
        (uploadAssets env cfg.assetsDir name env.listing).2) := by
  by_cases hid : cfg.releaseId = ""
  · exact absurd h (by simp [run, hid])
  · cases hrepo : env.repoPrivate with
    | error e => exact absurd h (by simp [run, if_neg hid, hrepo])
    | ok p =>
      cases hrel : env.release with
      | error e => exact absurd h (by simp [run, if_neg hid, hrepo, hrel])
      | ok rel =>
        cases hrender : env.render
            (getReleaseNoteMarkdown rel.body rel.tag_name rel.html_url p) with
        | error e => exact absurd h (by simp [run, if_neg hid, hrepo, hrel, hrender])
        | ok html =>
          have hrun := run_stages cfg env p rel html hid hrepo hrel hrender
          rw [hrun] at h
          cases hga : getAssets env cfg.assetsDir with
          | error e => rw [hga] at h; exact absurd h (by simp)
          | ok assets =>
            obtain ⟨hassets, _, _⟩ := getAssets_ok hga
            subst hassets
            rw [hga] at h hrun
            dsimp only at h hrun
            cases hman : readAppManifest env.toFsEnv cfg.assetsDir env.listing with
            | error e => rw [hman] at h; exact absurd h (by simp)
            | ok om =>
              rw [hman] at h hrun
              dsimp only at h hrun
              cases hbody : createAppReleaseBody rel html
                  (getReleaseNoteMarkdown rel.body rel.tag_name rel.html_url p) om with
              | error e => rw [hbody] at h; exact absurd h (by simp)
              | ok body =>
                rw [hbody] at h hrun
                dsimp only at h hrun
                cases hcr : env.createRelease body with
                | error e => rw [hcr] at h; exact absurd h (by simp)
                | ok name =>
                  rw [hcr] at h hrun
                  dsimp only at h hrun
                  refine ⟨p, rel, html, om, body, name, hid, rfl, rfl, hrender,
                    rfl, rfl, hbody, hcr, h, ?_⟩
                  rw [hrun]
                  rw [Prod.ext_iff]
                  exact ⟨h, rfl⟩

/-- C5: when the run succeeds, the trace contains the release-creation call,
and the asset-upload calls are exactly one upload per file of the assets
listing (so also the archive the manifest was read from), in listing order,
each carrying the release name the creation call returned. -/
theorem run_uploads_every_asset (cfg : Config) (env : Env)
    (h : (run cfg env).1 = .ok ()) :
    ∃ name body,
      NetCall.createRelease body ∈ (run cfg env).2 ∧
      env.createRelease body = .ok name ∧
      uploadCalls (run cfg env).2 =
        env.listing.map (fun a => NetCall.uploadAsset ⟨name, cfg.assetsDir ++ "/" ++ a⟩) ∧
      (∀ a ∈ env.listing,
        NetCall.uploadAsset ⟨name, cfg.assetsDir ++ "/" ++ a⟩ ∈ uploadCalls (run cfg env).2) ∧
      (env.listing.Nodup → (uploadCalls (run cfg env).2).Nodup) := by
  obtain ⟨p, rel, html, om, body, name, hid, hrepo, hrel, hrender, hga, hman,
    hbody, hcr, hup, hrun⟩ := run_ok_shape cfg env h
  have htrace : (run cfg env).2 = baseTrace cfg rel p ++ [.createRelease body] ++
      (uploadAssets env cfg.assetsDir name env.listing).2 := by rw [hrun]
  have hu2 := uploadAssets_ok_trace env cfg.assetsDir name env.listing hup
  have hcalls : uploadCalls (run cfg env).2 =
      env.listing.map (fun a => NetCall.uploadAsset ⟨name, cfg.assetsDir ++ "/" ++ a⟩) := by
    rw [htrace, hu2]
    rw [show (fun a => NetCall.uploadAsset ⟨name, cfg.assetsDir ++ "/" ++ a⟩) =
      (fun a => NetCall.uploadAsset
        ((fun b => (⟨name, cfg.assetsDir ++ "/" ++ b⟩ : FormPayload)) a)) from rfl]
    rw [← uploadCalls_of_map (fun b => (⟨name, cfg.assetsDir ++ "/" ++ b⟩ : FormPayload))
      env.listing]
    simp [uploadCalls, baseTrace]
  refine ⟨name, body, ?_, hcr, hcalls, ?_, ?_⟩
  · rw [htrace]
    simp
  · intro a ha
    rw [hcalls]
    exact List.mem_map_of_mem _ ha
  · intro hnd
    rw [hcalls]
    refine List.Nodup.map ?_ hnd
    intro a b hab
    simp only [NetCall.uploadAsset.injEq, FormPayload.mk.injEq, true_and] at hab
    exact append_left_cancel hab

/-- C5 witness: the happy-path run uploads both listed files, including the
archive `a.jar` the manifest was read from, tagged with the returned release
name. -/
theorem run_uploads_every_asset_witness :
    (run cfgOk envHappy).1 = .ok () ∧
    ∃ name body,
      NetCall.createRelease body ∈ (run cfgOk envHappy).2 ∧
      envHappy.createRelease body = .ok name ∧
      uploadCalls (run cfgOk envHappy).2 =
        envHappy.listing.map
          (fun a => NetCall.uploadAsset ⟨name, cfgOk.assetsDir ++ "/" ++ a⟩) ∧
      (∀ a ∈ envHappy.listing,
        NetCall.uploadAsset ⟨name, cfgOk.assetsDir ++ "/" ++ a⟩ ∈
          uploadCalls (run cfgOk envHappy).2) ∧
      (envHappy.listing.Nodup → (uploadCalls (run cfgOk envHappy).2).Nodup) :=
  ⟨rfl, run_uploads_every_asset cfgOk envHappy rfl⟩

/-- C6: if any one of the concurrent uploads rejects, the aggregate fails and
its error is the rejecting upload's own message; each asset's existence is
re-checked before its upload, a vanished file failing that upload with the
missing-asset message before any POST for it; and a failed run surfaces the
error message verbatim in the terminal outcome. -/
theorem uploadAssets_fail_fast (env : Env) (dir name : String)
    (assets : List String) (cfg : Config) (e : String) :
    ((∃ a ∈ assets, (uploadOne env dir name a).1 ≠ .ok ()) →
      ∃ e2, (uploadAssets env dir name assets).1 = .error e2 ∧
        ∃ a ∈ assets, (uploadOne env dir name a).1 = .error e2) ∧
    (∀ a, env.fileExists (dir ++ "/" ++ a) = false →
      uploadOne env dir name a =
        (.error ("Asset file does not exist: " ++ (dir ++ "/" ++ a)), [])) ∧
    ((run cfg env).1 = .error e → runOutcome cfg env = "❌ [Failed]: " ++ e) ∧
    (∀ p rel html om body name2,
      ¬ cfg.releaseId = "" →
      env.repoPrivate = .ok p →
      env.release = .ok rel →
      env.render (getReleaseNoteMarkdown rel.body rel.tag_name rel.html_url p) = .ok html →
      getAssets env cfg.assetsDir = .ok env.listing →
      readAppManifest env.toFsEnv cfg.assetsDir env.listing = .ok om →
      createAppReleaseBody rel html
        (getReleaseNoteMarkdown rel.body rel.tag_name rel.html_url p) om = .ok body →
      env.createRelease body = .ok name2 →
      (run cfg env).1 = (uploadAssets env cfg.assetsDir name2 env.listing).1) := by
  refine ⟨?_, ?_, ?_, ?_⟩
  · intro hex
    cases haggr : (uploadAssets env dir name assets).1 with
    | ok u =>
      obtain ⟨a, ha, hne⟩ := hex
      cases u
      exact absurd (uploadAssets_ok_all env dir name assets haggr a ha) hne
    | error e2 =>
      exact ⟨e2, rfl, uploadAssets_error_mem env dir name assets e2 haggr⟩
  · intro a hf
    unfold uploadOne
    simp [hf]
  · intro hr
    unfold runOutcome
    rw [hr]
  · intro p rel html om body name2 hid hrepo hrel hrender hga hman hbody hcr
    have hrun := run_stages cfg env p rel html hid hrepo hrel hrender
    rw [hrun, hga]
    dsimp only
    rw [hman]
    dsimp only
    rw [hbody]
    dsimp only
    rw [hcr]

/-- C6 witness: with every asset file vanished, the aggregate fails with the
missing-asset message of a listed asset, the per-asset check fails before
any POST, and a failed run surfaces its message verbatim. -/
theorem uploadAssets_fail_fast_witness :
    (∃ e2, (uploadAssets envVanished "assets" "rel" ["a.jar"]).1 = .error e2 ∧
      ∃ a ∈ ["a.jar"], (uploadOne envVanished "assets" "rel" a).1 = .error e2) ∧
    (uploadOne envVanished "assets" "rel" "a.jar" =
      (.error ("Asset file does not exist: " ++ ("assets" ++ "/" ++ "a.jar")), [])) ∧
    runOutcome cfgNoId envVanished = "❌ [Failed]: " ++ "Release ID not found" := by
  have h := uploadAssets_fail_fast envVanished "assets" "rel" ["a.jar"]
    cfgNoId "Release ID not found"
  refine ⟨h.1 ⟨"a.jar", by simp, ?_⟩, h.2.1 "a.jar" rfl, h.2.2.1 rfl⟩
  intro hc
  exact Except.noConfusion hc

end AppStoreRelease
